import Mathlib

/-! The orders generator (`orders-generator/main.go`).

A shallow embedding of the generator: a process that waits, opens a database
connection, creates the table `inventory.orders_info`, inserts one random row
every three seconds until SIGINT/SIGTERM is observed, and then drops the table
and closes the connection.

The program is sequential.  Everything it cannot decide itself is an input of
the model (`Env`): the results of the database calls, the values returned by
the random source and the moments at which a signal is delivered.  The
observable behaviour of a run is the list of actions it performs (`Event`).
The loop of `main` does not terminate on its own, so a run is observed for a
given number of passes of the loop (`main env n`); `main env n` is a total
function, and a run that has ended within `n` passes stays as it is.

Signals that arrive before `signal.Notify` and a forced kill end the process
from outside; such runs are not covered.  All numbers are far below the range
of the machine integers of the source, so they are natural numbers here.
-/

namespace OrdersGenerator

/-! ## The SQL text of the program -/

/-- The constant `createQ` (a raw string literal: the line breaks and tabs are part of it). -/
def createQ : String :=
  "CREATE TABLE inventory.orders_info (\n\torderid SERIAL NOT NULL PRIMARY KEY,\n\tcustid INTEGER NOT NULL,\n\tamount INTEGER NOT NULL,\n\tcity VARCHAR(255) NOT NULL\n  );"

/-- The constant `dropQ`. -/
def dropQ : String := "drop TABLE inventory.orders_info"

/-- The local `q` of `insert`. -/
def insertQ : String :=
  "insert into inventory.orders_info (custid, amount, city) values ($1,$2,$3)"

/-- The arguments of `sql.Open` in `main`. -/
def driverName : String := "pgx"

/-- The data source name passed to `sql.Open` in `main`. -/
def dataSourceName : String :=
  "host=postgres port=5432 user=postgres password=postgres dbname=postgres"

/-! ## Reading a statement

The statements are plain strings in the source.  The functions below read off
the column list and the parameter list of an `insert` statement and the column
definitions of a `CREATE TABLE` statement, the way the database server does. -/

/-- Cut a character list at every occurrence of `sep`. -/
def splitChars (sep : Char) : List Char → List (List Char)
  | [] => [[]]
  | c :: cs =>
    match splitChars sep cs with
    | [] => [[]]
    | w :: ws => if c = sep then [] :: w :: ws else (c :: w) :: ws

/-- White space inside a statement. -/
def isBlank (c : Char) : Bool := c = ' ' || c = '\n' || c = '\t'

/-- Remove leading and trailing white space. -/
def trimChars (cs : List Char) : List Char :=
  ((cs.dropWhile isBlank).reverse.dropWhile isBlank).reverse

/-- What follows the first opening bracket. -/
def afterOpen (cs : List Char) : List Char :=
  (cs.dropWhile (fun c => c != '(')).drop 1

/-- What follows the first closing bracket. -/
def afterClose (cs : List Char) : List Char :=
  (cs.dropWhile (fun c => c != ')')).drop 1

/-- The text of the first bracket group, up to its closing bracket. -/
def firstGroup (cs : List Char) : List Char :=
  (afterOpen cs).takeWhile (fun c => c != ')')

/-- The comma separated, trimmed items of a character list. -/
def items (cs : List Char) : List String :=
  ((splitChars ',' cs).map trimChars).map String.mk

/-- The columns an `insert into t (c1, ..., cn) values (...)` statement names. -/
def insertColumns (q : String) : List String :=
  items (firstGroup q.data)

/-- The value expressions of an `insert into t (...) values (e1, ..., en)` statement. -/
def insertValues (q : String) : List String :=
  items (firstGroup (afterClose q.data))

/-- The text between the first opening bracket and the last closing bracket. -/
def tableBody (cs : List Char) : List Char :=
  (((afterOpen cs).reverse.dropWhile (fun c => c != ')')).drop 1).reverse

/-- The column definitions of a `CREATE TABLE t (...)` statement: each column
name with the words that follow it. -/
def columnDefs (ddl : String) : List (String × List String) :=
  ((splitChars ',' (tableBody ddl.data)).map trimChars).map fun d =>
    match (splitChars ' ' d).map String.mk with
    | [] => ("", [])
    | name :: rest => (name, rest)

/-- The columns a `CREATE TABLE` statement declares `SERIAL`. -/
def serialColumns (ddl : String) : List String :=
  ((columnDefs ddl).filter fun d => d.2.head? == some "SERIAL").map Prod.fst

/-! ## Values and rows -/

/-- A parameter handed to `db.Exec`. -/
inductive Value where
  | int (n : Nat)
  | str (s : String)
  deriving DecidableEq, Repr

/-- The three fields `insert` generates. -/
structure Row where
  custid : Nat
  amount : Nat
  city : String
  deriving DecidableEq, Repr

/-- The parameters of the `db.Exec(q, custid, amount, city)` call. -/
def Row.args (r : Row) : List Value := [.int r.custid, .int r.amount, .str r.city]

/-! ## The random source -/

/-- The call `rand.Intn(n)`: it panics when `n <= 0` and otherwise returns a
number in `[0, n)`.  The number is arbitrary: it is taken from the raw value
`raw` of the source. -/
def Intn (n : Nat) (raw : Nat) : Except String Nat :=
  if n = 0 then .error "invalid argument to Intn" else .ok (raw % n)

/-- The expression `rand.Intn(1000) + 1`, as a function of the draw. -/
def custidOf (draw : Nat) : Nat := draw + 1

/-- The expression `rand.Intn(100) + 100`, as a function of the draw. -/
def amountOf (draw : Nat) : Nat := draw + 100

/-- The index expression `cities[i]`: a run-time panic when `i` is out of range. -/
def cityOf (cities : List String) (i : Nat) : Except String String :=
  match cities[i]? with
  | some c => .ok c
  | none => .error "index out of range"

/-- The slice literal assigned to `cities` in `main`. -/
def mainCities : List String :=
  ["New Delhi", "Seattle", "New York", "Austin", "Chicago", "Cleveland"]

/-- The first three statements of `insert`: the three draws, in program order,
and the row built from them.  `raw j` is the raw value behind the `j`-th draw of
this call. -/
def genRow (cities : List String) (raw : Nat → Nat) : Except String Row := do
  let custid := custidOf (← Intn 1000 (raw 0))
  let amount := amountOf (← Intn 100 (raw 1))
  let city ← cityOf cities (← Intn cities.length (raw 2))
  pure ⟨custid, amount, city⟩

/-! ## The environment of a run -/

/-- Everything a run depends on that the program does not decide.  A database
call returns `none` (no error) or `some msg` (an error with text `msg`). -/
structure Env where
  /-- The error returned by `sql.Open`. -/
  openErr : Option String
  /-- The error returned by `db.Ping`. -/
  pingErr : Option String
  /-- The error returned by `db.Exec(createQ)`. -/
  createErr : Option String
  /-- The error returned by `db.Exec(dropQ)`. -/
  dropErr : Option String
  /-- The error returned by the `db.Exec` of the `i`-th call of `insert`. -/
  insertErr : Nat → Option String
  /-- The raw value behind the `j`-th draw of the `i`-th call of `insert`. -/
  rnd : Nat → Nat → Nat
  /-- A signal is delivered after `signal.Notify` and before the first loop check. -/
  sigStart : Bool
  /-- A signal is delivered while the `i`-th call of `insert` is in flight. -/
  sigInsert : Nat → Bool
  /-- A signal is delivered during the sleep that follows the `i`-th call of `insert`. -/
  sigSleep : Nat → Bool
  /-- The number of sequence values the storage layer consumes for the `i`-th
  insert when that insert fails (a sequence is not rolled back). -/
  seqSkip : Nat → Nat

/-! ## The storage layer -/

/-- A row as the table holds it. -/
structure StoredRow where
  orderid : Nat
  custid : Nat
  amount : Nat
  city : String
  deriving DecidableEq, Repr

/-- Modelled from the spec: the storage layer is the database server, which is
not part of the repository.  The spec says that `order_id` is an
auto-incrementing integer primary key, assigned by the storage layer: the table
owns a counter (`nextval`), and a row that comes without a value for a `SERIAL`
column takes the counter's value, which then moves on.  `inserted` lists the
rows the table has accepted, in insertion order. -/
structure Storage where
  nextval : Nat
  inserted : List StoredRow
  deriving Repr

/-- The number a parameter carries (`0` for a missing or non-numeric one). -/
def natOf : Option Value → Nat
  | some (.int n) => n
  | _ => 0

/-- The text a parameter carries (empty for a missing or non-text one). -/
def strOf : Option Value → String
  | some (.str s) => s
  | _ => ""

/-- Modelled from the spec: the storage layer accepting one `insert` for a
table created by `ddl`.  The statement's column list is paired with the
parameters.  When the statement supplies `orderid`, that value is stored and
the counter is left alone; when it does not and the table declares `orderid`
as `SERIAL`, the counter's value is stored and the counter advances; a row
with no `orderid` at all is refused. -/
def Storage.accept (db : Storage) (ddl q : String) (args : List Value) : Storage :=
  let given := (insertColumns q).zip args
  let rest := fun (id : Nat) =>
    (⟨id, natOf (given.lookup "custid"), natOf (given.lookup "amount"),
      strOf (given.lookup "city")⟩ : StoredRow)
  match given.lookup "orderid" with
  | some v => { db with inserted := db.inserted ++ [rest (natOf (some v))] }
  | none =>
    if "orderid" ∈ serialColumns ddl then
      { nextval := db.nextval + 1, inserted := db.inserted ++ [rest db.nextval] }
    else db

/-- Modelled from the spec: the storage layer refusing one `insert`.  No row is
stored; the counter may have been consumed all the same. -/
def Storage.refuse (db : Storage) (skipped : Nat) : Storage :=
  { db with nextval := db.nextval + skipped }

/-! ## Actions and program state -/

/-- The actions of a run, in the order they happen. -/
inductive Event where
  /-- The call `time.Sleep(n * time.Second)`. -/
  | sleep (seconds : Nat)
  /-- The call `sql.Open(driver, dsn)`. -/
  | sqlOpen (driver dsn : String)
  /-- The call `db.Ping()`. -/
  | ping
  /-- The call `db.Exec(query, args...)`. -/
  | exec (query : String) (args : List Value)
  /-- The message of one line written by the `log` package (without the date
  and time the logger puts in front). -/
  | log (line : String)
  /-- The call `db.Close()`. -/
  | dbClose
  /-- A run-time panic is raised. -/
  | panic (msg : String)
  /-- The process ends with this status. -/
  | exit (code : Nat)
  deriving DecidableEq, Repr

/-- A function call registered with `defer` in `main`. -/
inductive Deferred where
  | dbClose
  | drop
  deriving DecidableEq, Repr

/-- Whether the process is still running. -/
inductive Flow where
  | running
  | exited (code : Nat)
  deriving DecidableEq, Repr

/-- The state of the process. -/
structure St where
  /-- The package variable `cities` (nil until `main` assigns it). -/
  cities : List String
  /-- The deferred calls of `main`, the most recent first. -/
  deferred : List Deferred
  /-- The channel `exit` (capacity 1) holds a signal. -/
  pending : Bool
  /-- The number of calls of `insert` made so far. -/
  iter : Nat
  /-- The actions performed so far. -/
  trace : List Event
  /-- Whether the process is still running. -/
  flow : Flow
  /-- The storage layer behind the connection. -/
  db : Storage

/-- The state in which `main` is entered. -/
def St.initial : St :=
  { cities := [], deferred := [], pending := false, iter := 0, trace := [],
    flow := .running, db := { nextval := 1, inserted := [] } }

/-- Perform one action. -/
def emit (e : Event) (st : St) : St := { st with trace := st.trace ++ [e] }

/-- The call `log.Fatal`: write the line, then `os.Exit(1)`.  Deferred calls do not run. -/
def logFatal (line : String) (st : St) : St :=
  { st with trace := st.trace ++ [.log line, .exit 1], flow := .exited 1 }

/-- A statement `defer f()`. -/
def pushDeferred (d : Deferred) (st : St) : St := { st with deferred := d :: st.deferred }

/-- The signal package sends on the channel `exit` without blocking: the
channel keeps one signal until the program receives it. -/
def deliver (arrived : Bool) (st : St) : St := { st with pending := st.pending || arrived }

/-! ## The functions of the program -/

/-- The function `create`.  `log.Fatal("failed to create table", err)` prints its
operands without a space between them, since the first one is a string. -/
def create (env : Env) (st : St) : St :=
  let st := emit (.exec createQ []) st
  match env.createErr with
  | some err => logFatal ("failed to create table" ++ err) st
  | none => emit (.log "table created") st

/-- The function `drop`. -/
def drop (env : Env) (st : St) : St :=
  let st := emit (.exec dropQ []) st
  match env.dropErr with
  | some err => logFatal ("failed to drop table " ++ err) st
  | none => emit (.log "table dropped") st

/-- The function `insert`; `.error msg` is a run-time panic.  `log.Println`
separates its operands by a space. -/
def insert (env : Env) (st : St) : Except String St :=
  match genRow st.cities (env.rnd st.iter) with
  | .error msg => .error msg
  | .ok row =>
    let st := emit (.exec insertQ row.args) st
    match env.insertErr st.iter with
    | some err =>
      .ok (emit (.log ("failed to insert order " ++ err))
        { st with db := st.db.refuse (env.seqSkip st.iter) })
    | none => .ok { st with db := st.db.accept createQ insertQ row.args }

/-- Run the deferred calls of `main`, the most recent first.  A call that ends
the process (`log.Fatal` in `drop`) leaves the remaining ones unrun. -/
def runDeferred (env : Env) : List Deferred → St → St
  | [], st => st
  | d :: ds, st =>
    let st1 :=
      match d with
      | .drop => drop env { st with deferred := ds }
      | .dbClose => emit .dbClose { st with deferred := ds }
    match st1.flow with
    | .running => runDeferred env ds st1
    | .exited _ => st1

/-- The end of `main` with status `code`: the deferred calls run, then the process exits. -/
def finish (env : Env) (code : Nat) (st : St) : St :=
  let st1 := runDeferred env st.deferred st
  match st1.flow with
  | .running => { st1 with trace := st1.trace ++ [.exit code], flow := .exited code }
  | .exited _ => st1

/-- One pass through the body of `for { select { ... } }`.  A signal in the
channel selects `case <-exit`; otherwise the `default` branch runs.  A panic in
`insert` unwinds `main`: the deferred calls run and the process exits with status 2. -/
def step (env : Env) (st : St) : St :=
  match st.flow with
  | .exited _ => st
  | .running =>
    if st.pending then
      finish env 0 (emit (.log "application stopped") { st with pending := false })
    else
      match insert env st with
      | .error msg => finish env 2 (emit (.panic msg) st)
      | .ok st1 =>
        let st2 := deliver (env.sigInsert st.iter) st1
        let st3 := emit (.sleep 3) st2
        let st4 := deliver (env.sigSleep st.iter) st3
        { st4 with iter := st.iter + 1 }

/-- The statements of `main` before the loop. -/
def startup (env : Env) : St :=
  let st := emit (.sleep 5) St.initial
  let st := emit (.sqlOpen driverName dataSourceName) st
  match env.openErr with
  | some err => logFatal err st
  | none =>
    let st := emit .ping st
    match env.pingErr with
    | some err => logFatal err st
    | none =>
      let st := pushDeferred .dbClose st
      let st := create env st
      match st.flow with
      | .exited _ => st
      | .running =>
        let st := pushDeferred .drop st
        let st := { st with cities := mainCities }
        deliver env.sigStart st

/-- The loop of `main`, observed for `n` passes. -/
def loop (env : Env) : Nat → St → St
  | 0, st => st
  | n + 1, st => step env (loop env n st)

/-- The function `main`, observed for `n` passes of its loop.  The state is
`.running` when the loop has not ended within `n` passes. -/
def main (env : Env) (n : Nat) : St := loop env n (startup env)

/-! ## Reading a trace -/

/-- Whether an action is the `insert` statement. -/
def Event.isInsert : Event → Bool
  | .exec q _ => q == insertQ
  | _ => false

/-- Whether an action is the `CREATE TABLE` statement. -/
def Event.isCreate : Event → Bool
  | .exec q _ => q == createQ
  | _ => false

/-- Whether an action is the `drop TABLE` statement. -/
def Event.isDrop : Event → Bool
  | .exec q _ => q == dropQ
  | _ => false

/-- The lines of the log, in order. -/
def logLines : List Event → List String
  | [] => []
  | .log l :: es => l :: logLines es
  | _ :: es => logLines es

/-- The channel `exit` as the `k`-th loop check finds it, provided the loop gets that far. -/
def Env.pendingAt (env : Env) : Nat → Bool
  | 0 => env.sigStart
  | k + 1 => env.pendingAt k || env.sigInsert k || env.sigSleep k

/-- An environment in which every call succeeds and a signal arrives during the third sleep. -/
def Env.sample : Env :=
  { openErr := none, pingErr := none, createErr := none, dropErr := none,
    insertErr := fun _ => none, rnd := fun i j => 7 * i + 13 * j + 5,
    sigStart := false, sigInsert := fun _ => false, sigSleep := fun i => i == 2,
    seqSkip := fun _ => 0 }

/-! ## The shape of a run -/

/-- A raw source behind which the three draws of one call of `insert` are `d0`, `d1`, `d2`. -/
def drawsOf (d0 d1 d2 : Nat) : Nat → Nat
  | 0 => d0
  | 1 => d1
  | _ => d2

/-- The row generated by the `i`-th call of `insert` in `main`. -/
def Env.row (env : Env) (i : Nat) : Row :=
  match genRow mainCities (env.rnd i) with
  | .ok r => r
  | .error _ => ⟨0, 0, ""⟩

/-- The actions of the `i`-th call of `insert`: the statement, and one log line when it fails. -/
def insertEvents (env : Env) (i : Nat) : List Event :=
  .exec insertQ (env.row i).args ::
    (match env.insertErr i with
     | some err => [.log ("failed to insert order " ++ err)]
     | none => [])

/-- The actions of the first `k` passes of the loop: each pass is one call of
`insert` followed by one sleep of three seconds. -/
def passes (env : Env) : Nat → List Event
  | 0 => []
  | k + 1 => passes env k ++ (insertEvents env k ++ [.sleep 3])

/-- The actions of `main` before the loop, when every call succeeds. -/
def startTrace : List Event :=
  [.sleep 5, .sqlOpen driverName dataSourceName, .ping, .exec createQ [], .log "table created"]

/-- The actions of `main` after the loop has seen the signal. -/
def stopTrace (env : Env) : List Event :=
  .log "application stopped" :: .exec dropQ [] ::
    (match env.dropErr with
     | some err => [.log ("failed to drop table " ++ err), .exit 1]
     | none => [.log "table dropped", .dbClose, .exit 0])

/-- The storage layer after the first `k` calls of `insert`. -/
def dbAfter (env : Env) : Nat → Storage
  | 0 => { nextval := 1, inserted := [] }
  | k + 1 =>
    match env.insertErr k with
    | some _ => (dbAfter env k).refuse (env.seqSkip k)
    | none => (dbAfter env k).accept createQ insertQ (env.row k).args

/-- The state at the `k`-th loop check of a run that has not seen a signal before it. -/
def runningState (env : Env) (k : Nat) : St :=
  { cities := mainCities, deferred := [.drop, .dbClose], pending := env.pendingAt k, iter := k,
    trace := startTrace ++ passes env k, flow := .running, db := dbAfter env k }

/-- The final state of a run that sees the signal at its `k`-th loop check. -/
def stoppedState (env : Env) (k : Nat) : St :=
  { cities := mainCities,
    deferred := (match env.dropErr with
      | some _ => [.dbClose]
      | none => []),
    pending := false, iter := k,
    trace := startTrace ++ passes env k ++ stopTrace env,
    flow := (match env.dropErr with
      | some _ => .exited 1
      | none => .exited 0),
    db := dbAfter env k }

/-- The signal is first in the channel at the `k`-th loop check. -/
def Env.firstSignalAt (env : Env) (k : Nat) : Prop :=
  env.pendingAt k = true ∧ ∀ j, j < k → env.pendingAt j = false

/-- The environment `env` with the `i`-th insert succeeding. -/
def Env.withInsertOk (env : Env) (i : Nat) : Env :=
  { env with insertErr := fun j => if j = i then none else env.insertErr j }

/-! ## Facts about the statements and the row generator -/

theorem insertColumns_insertQ : insertColumns insertQ = ["custid", "amount", "city"] := by decide

theorem serialColumns_createQ : serialColumns createQ = ["orderid"] := by decide

theorem cityOf_main (i : Nat) (h : i < 6) :
    ∃ c, cityOf mainCities i = .ok c ∧ c ∈ mainCities := by
  interval_cases i <;> simp [cityOf, mainCities]

theorem genRow_main (raw : Nat → Nat) :
    ∃ c, cityOf mainCities (raw 2 % 6) = .ok c ∧ c ∈ mainCities ∧
      genRow mainCities raw = .ok ⟨raw 0 % 1000 + 1, raw 1 % 100 + 100, c⟩ := by
  obtain ⟨c, hc, hm⟩ := cityOf_main (raw 2 % 6) (Nat.mod_lt _ (by norm_num))
  refine ⟨c, hc, hm, ?_⟩
  have hlen : mainCities.length = 6 := rfl
  simp only [genRow, Intn, hlen, custidOf, amountOf]
  simp [bind, Except.bind, hc, pure, Except.pure]

theorem genRow_row (env : Env) (i : Nat) :
    genRow mainCities (env.rnd i) = .ok (env.row i) := by
  obtain ⟨c, -, -, h⟩ := genRow_main (env.rnd i)
  simp [Env.row, h]

theorem insert_main (env : Env) (st : St) (h : st.cities = mainCities) :
    insert env st = .ok
      (match env.insertErr st.iter with
       | some err =>
         { st with
           trace := st.trace ++ [.exec insertQ (env.row st.iter).args,
             .log ("failed to insert order " ++ err)],
           db := st.db.refuse (env.seqSkip st.iter) }
       | none =>
         { st with
           trace := st.trace ++ [.exec insertQ (env.row st.iter).args],
           db := st.db.accept createQ insertQ (env.row st.iter).args }) := by
  unfold insert
  rw [h, genRow_row]
  cases hE : env.insertErr st.iter <;> simp [emit, hE, h]

theorem startup_ok (env : Env) (ho : env.openErr = none) (hp : env.pingErr = none)
    (hc : env.createErr = none) : startup env = runningState env 0 := by
  simp [startup, ho, hp, hc, create, emit, pushDeferred, deliver, runningState, St.initial,
    startTrace, passes, dbAfter, Env.pendingAt]

theorem step_running (env : Env) (k : Nat) (h : env.pendingAt k = false) :
    step env (runningState env k) = runningState env (k + 1) := by
  have hi := insert_main env (runningState env k) rfl
  unfold step
  simp only [runningState, h] at hi ⊢
  rw [hi]
  cases hE : env.insertErr k <;>
    simp [deliver, emit, passes, insertEvents, dbAfter, Env.pendingAt, hE, h]

theorem step_stopped (env : Env) (k : Nat) (h : env.pendingAt k = true) :
    step env (runningState env k) = stoppedState env k := by
  unfold step
  simp only [runningState, h]
  cases hD : env.dropErr <;>
    simp [finish, runDeferred, drop, emit, logFatal, stoppedState, stopTrace, hD]
theorem step_exited (env : Env) (st : St) (c : Nat) (h : st.flow = .exited c) :
    step env st = st := by
  unfold step
  simp [h]

theorem loop_exited (env : Env) (n : Nat) (st : St) (c : Nat) (h : st.flow = .exited c) :
    loop env n st = st := by
  induction n with
  | zero => rfl
  | succ n ih => simp [loop, ih, step_exited env st c h]

theorem loop_add (env : Env) (n m : Nat) (st : St) :
    loop env (n + m) st = loop env m (loop env n st) := by
  induction m with
  | zero => rfl
  | succ m ih => rw [← Nat.add_assoc]; simp [loop, ih]

theorem main_running (env : Env) (ho : env.openErr = none) (hp : env.pingErr = none)
    (hc : env.createErr = none) (k : Nat) (h : ∀ j, j < k → env.pendingAt j = false) :
    main env k = runningState env k := by
  induction k with
  | zero => exact startup_ok env ho hp hc
  | succ k ih =>
    have h1 := ih (fun j hj => h j (Nat.lt_succ_of_lt hj))
    unfold main at h1 ⊢
    simp only [loop, h1]
    exact step_running env k (h k (Nat.lt_succ_self k))

theorem stoppedState_exited (env : Env) (k : Nat) :
    ∃ c, (stoppedState env k).flow = .exited c := by
  cases hD : env.dropErr <;> simp [stoppedState, hD]

theorem main_stopped (env : Env) (ho : env.openErr = none) (hp : env.pingErr = none)
    (hc : env.createErr = none) (k n : Nat) (hs : env.firstSignalAt k) (hn : k < n) :
    main env n = stoppedState env k := by
  obtain ⟨m, rfl⟩ : ∃ m, n = (k + 1) + m := ⟨n - (k + 1), by omega⟩
  have h1 := main_running env ho hp hc k hs.2
  obtain ⟨c, hcode⟩ := stoppedState_exited env k
  unfold main at h1 ⊢
  rw [loop_add]
  have h2 : loop env (k + 1) (startup env) = stoppedState env k := by
    simp only [loop, h1]
    exact step_stopped env k hs.1
  rw [h2]
  exact loop_exited env m _ c hcode

theorem signal_cases (env : Env) (n : Nat) :
    (∀ j, j < n → env.pendingAt j = false) ∨ ∃ k, k < n ∧ env.firstSignalAt k := by
  induction n with
  | zero => left; intro j hj; omega
  | succ n ih =>
    rcases ih with h | ⟨k, hk, hf⟩
    · cases hp : env.pendingAt n
      · left
        intro j hj
        rcases Nat.lt_succ_iff_lt_or_eq.mp hj with h1 | h1
        · exact h j h1
        · rw [h1]; exact hp
      · right
        exact ⟨n, Nat.lt_succ_self n, hp, h⟩
    · right
      exact ⟨k, Nat.lt_succ_of_lt hk, hf⟩

theorem main_openFail (env : Env) (err : String) (ho : env.openErr = some err) (n : Nat) :
    main env n =
      { St.initial with
        trace := [.sleep 5, .sqlOpen driverName dataSourceName, .log err, .exit 1],
        flow := .exited 1 } := by
  have h : startup env = { St.initial with
      trace := [.sleep 5, .sqlOpen driverName dataSourceName, .log err, .exit 1],
      flow := .exited 1 } := by
    simp [startup, ho, logFatal, emit, St.initial]
  unfold main
  rw [h]
  exact loop_exited env n _ 1 rfl

theorem main_pingFail (env : Env) (err : String) (ho : env.openErr = none)
    (hp : env.pingErr = some err) (n : Nat) :
    main env n =
      { St.initial with
        trace := [.sleep 5, .sqlOpen driverName dataSourceName, .ping, .log err, .exit 1],
        flow := .exited 1 } := by
  have h : startup env = { St.initial with
      trace := [.sleep 5, .sqlOpen driverName dataSourceName, .ping, .log err, .exit 1],
      flow := .exited 1 } := by
    simp [startup, ho, hp, logFatal, emit, St.initial]
  unfold main
  rw [h]
  exact loop_exited env n _ 1 rfl

theorem main_createFail (env : Env) (err : String) (ho : env.openErr = none)
    (hp : env.pingErr = none) (hc : env.createErr = some err) (n : Nat) :
    main env n =
      { St.initial with
        deferred := [.dbClose],
        trace := [.sleep 5, .sqlOpen driverName dataSourceName, .ping, .exec createQ [],
          .log ("failed to create table" ++ err), .exit 1],
        flow := .exited 1 } := by
  have h : startup env = { St.initial with
      deferred := [.dbClose],
      trace := [.sleep 5, .sqlOpen driverName dataSourceName, .ping, .exec createQ [],
        .log ("failed to create table" ++ err), .exit 1],
      flow := .exited 1 } := by
    simp [startup, ho, hp, hc, create, pushDeferred, logFatal, emit, St.initial]
  unfold main
  rw [h]
  exact loop_exited env n _ 1 rfl
theorem append_ne_of_head (a err b : String) (c d : Char) (cs ds : List Char)
    (ha : a.data = c :: cs) (hb : b.data = d :: ds) (hcd : c ≠ d) : a ++ err ≠ b := by
  intro h
  have h1 := congrArg String.data h
  simp [String.data_append, ha, hb] at h1
  exact hcd h1.1

theorem insertFail_ne_dropped (err : String) :
    "failed to insert order " ++ err ≠ "table dropped" :=
  append_ne_of_head _ err _ 'f' 't' _ _ rfl rfl (by decide)

theorem dropFail_ne_dropped (err : String) :
    "failed to drop table " ++ err ≠ "table dropped" :=
  append_ne_of_head _ err _ 'f' 't' _ _ rfl rfl (by decide)

theorem createFail_ne_created (err : String) :
    "failed to create table" ++ err ≠ "table created" :=
  append_ne_of_head _ err _ 'f' 't' _ _ rfl rfl (by decide)

theorem mem_insertEvents (env : Env) (i : Nat) (e : Event) (h : e ∈ insertEvents env i) :
    e = .exec insertQ (env.row i).args ∨
      ∃ err, env.insertErr i = some err ∧ e = .log ("failed to insert order " ++ err) := by
  unfold insertEvents at h
  cases hE : env.insertErr i with
  | none => simp [hE] at h; exact Or.inl h
  | some err =>
    simp [hE] at h
    rcases h with h | h
    · exact Or.inl h
    · exact Or.inr ⟨err, rfl, h⟩

theorem mem_passes (env : Env) (k : Nat) (e : Event) (h : e ∈ passes env k) :
    e = .sleep 3 ∨ ∃ i, i < k ∧ (e = .exec insertQ (env.row i).args ∨
      ∃ err, env.insertErr i = some err ∧ e = .log ("failed to insert order " ++ err)) := by
  induction k with
  | zero => simp [passes] at h
  | succ k ih =>
    simp only [passes, List.mem_append, List.mem_singleton] at h
    rcases h with h | h | h
    · rcases ih h with h1 | ⟨i, hi, h1⟩
      · exact Or.inl h1
      · exact Or.inr ⟨i, Nat.lt_succ_of_lt hi, h1⟩
    · exact Or.inr ⟨k, Nat.lt_succ_self k, mem_insertEvents env k e h⟩
    · exact Or.inl h

theorem dropQ_ne_insertQ : dropQ ≠ insertQ := by decide

theorem dropQ_ne_createQ : dropQ ≠ createQ := by decide

theorem createQ_ne_insertQ : createQ ≠ insertQ := by decide

theorem drop_not_mem_passes (env : Env) (k : Nat) (args : List Value) :
    Event.exec dropQ args ∉ passes env k := by
  intro h
  rcases mem_passes env k _ h with h1 | ⟨i, -, h1 | ⟨err, -, h1⟩⟩
  · cases h1
  · injection h1 with hq _
    exact dropQ_ne_insertQ hq
  · cases h1

theorem drop_not_mem_start (args : List Value) : Event.exec dropQ args ∉ startTrace := by
  intro h
  simp [startTrace] at h
  exact dropQ_ne_createQ h.1

theorem close_not_mem_passes (env : Env) (k : Nat) : Event.dbClose ∉ passes env k := by
  intro h
  rcases mem_passes env k _ h with h1 | ⟨i, -, h1 | ⟨err, -, h1⟩⟩ <;> cases h1

theorem dropped_not_mem_passes (env : Env) (k : Nat) :
    Event.log "table dropped" ∉ passes env k := by
  intro h
  rcases mem_passes env k _ h with h1 | ⟨i, -, h1 | ⟨err, -, h1⟩⟩
  · cases h1
  · cases h1
  · injection h1 with h2
    exact insertFail_ne_dropped err h2.symm

/-- C1: every row `insert` generates when `cities` is the list set in `main`
has `custid` in [1, 1000], `amount` in [100, 199] and `city` among the six
names; the call returns and sends exactly that row. -/
theorem insert_row_in_range (env : Env) (st : St) (h : st.cities = mainCities) :
    ∃ row st1, genRow st.cities (env.rnd st.iter) = .ok row ∧
      insert env st = .ok st1 ∧
      Event.exec insertQ [.int row.custid, .int row.amount, .str row.city] ∈ st1.trace ∧
      1 ≤ row.custid ∧ row.custid ≤ 1000 ∧ 100 ≤ row.amount ∧ row.amount ≤ 199 ∧
      row.city ∈ ["New Delhi", "Seattle", "New York", "Austin", "Chicago", "Cleveland"] := by
  obtain ⟨c, -, hm, hg⟩ := genRow_main (env.rnd st.iter)
  have h0 : (env.rnd st.iter 0) % 1000 < 1000 := Nat.mod_lt _ (by norm_num)
  have h1 : (env.rnd st.iter 1) % 100 < 100 := Nat.mod_lt _ (by norm_num)
  have hrow : env.row st.iter = ⟨env.rnd st.iter 0 % 1000 + 1, env.rnd st.iter 1 % 100 + 100, c⟩ := by
    simp [Env.row, hg]
  refine ⟨_, _, by rw [h]; exact hg, insert_main env st h, ?_, ?_, ?_, ?_, ?_, hm⟩
  · cases hE : env.insertErr st.iter <;> simp [hrow, Row.args]
  · simp
  · simp; omega
  · simp
  · simp; omega

/-- C1 at a concrete state: the state at the first loop check of a sample run. -/
theorem insert_row_in_range_witness :
    (runningState Env.sample 0).cities = mainCities ∧
    ∃ row st1, genRow (runningState Env.sample 0).cities
        (Env.sample.rnd (runningState Env.sample 0).iter) = .ok row ∧
      insert Env.sample (runningState Env.sample 0) = .ok st1 ∧
      Event.exec insertQ [.int row.custid, .int row.amount, .str row.city] ∈ st1.trace ∧
      1 ≤ row.custid ∧ row.custid ≤ 1000 ∧ 100 ≤ row.amount ∧ row.amount ≤ 199 ∧
      row.city ∈ ["New Delhi", "Seattle", "New York", "Austin", "Chicago", "Cleveland"] :=
  ⟨rfl, insert_row_in_range Env.sample (runningState Env.sample 0) rfl⟩

theorem fieldMaps_bijOn :
    Set.BijOn custidOf (Set.Ico 0 1000) (Set.Icc 1 1000) ∧
    Set.BijOn amountOf (Set.Ico 0 100) (Set.Icc 100 199) ∧
    Set.BijOn (cityOf mainCities) (Set.Ico 0 6) {r | ∃ c, c ∈ mainCities ∧ r = .ok c} ∧
    mainCities.Nodup ∧ mainCities.length = 6 ∧
    (∀ n raw d, Intn n raw = .ok d → d < n) ∧
    (∀ n d, d < n → ∃ raw, Intn n raw = .ok d) := by
  refine ⟨⟨?_, ?_, ?_⟩, ⟨?_, ?_, ?_⟩, ⟨?_, ?_, ?_⟩, by decide, rfl, ?_, ?_⟩
  · intro d hd
    simp only [Set.mem_Ico, Set.mem_Icc, custidOf] at hd ⊢
    omega
  · intro a _ b _ hab
    simp only [custidOf] at hab
    omega
  · intro v hv
    simp only [Set.mem_Icc] at hv
    refine ⟨v - 1, ?_, ?_⟩
    · simp only [Set.mem_Ico]; omega
    · simp only [custidOf]; omega
  · intro d hd
    simp only [Set.mem_Ico, Set.mem_Icc, amountOf] at hd ⊢
    omega
  · intro a _ b _ hab
    simp only [amountOf] at hab
    omega
  · intro v hv
    simp only [Set.mem_Icc] at hv
    refine ⟨v - 100, ?_, ?_⟩
    · simp only [Set.mem_Ico]; omega
    · simp only [amountOf]; omega
  · intro d hd
    simp only [Set.mem_Ico] at hd
    obtain ⟨c, hc, hm⟩ := cityOf_main d hd.2
    exact ⟨c, hm, hc⟩
  · intro a ha b hb hab
    simp only [Set.mem_Ico, Set.mem_setOf_eq] at ha hb
    have ha2 := ha.2
    have hb2 := hb.2
    interval_cases a <;> interval_cases b <;> simp [cityOf, mainCities] at hab ⊢
  · intro r hr
    obtain ⟨c, hc, rfl⟩ := hr
    simp only [mainCities, List.mem_cons, List.mem_singleton, List.not_mem_nil, or_false] at hc
    rcases hc with rfl | rfl | rfl | rfl | rfl | rfl
    · exact ⟨0, by simp, rfl⟩
    · exact ⟨1, by simp, rfl⟩
    · exact ⟨2, by simp, rfl⟩
    · exact ⟨3, by simp, rfl⟩
    · exact ⟨4, by simp, rfl⟩
    · exact ⟨5, by simp, rfl⟩
  · intro n raw d h
    unfold Intn at h
    by_cases hn : n = 0
    · simp [hn] at h
    · simp only [hn, if_false] at h
      injection h with h
      rw [← h]
      exact Nat.mod_lt _ (Nat.pos_of_ne_zero hn)
  · intro n d hd
    refine ⟨d, ?_⟩
    have hn : n ≠ 0 := by omega
    simp [Intn, hn, Nat.mod_eq_of_lt hd]
theorem genRow_drawsOf (d0 d1 d2 : Nat) (h0 : d0 < 1000) (h1 : d1 < 100) (h2 : d2 < 6) :
    ∃ c, cityOf mainCities d2 = .ok c ∧ c ∈ mainCities ∧
      genRow mainCities (drawsOf d0 d1 d2) = .ok ⟨custidOf d0, amountOf d1, c⟩ := by
  obtain ⟨c, hc, hm, hg⟩ := genRow_main (drawsOf d0 d1 d2)
  have e0 : drawsOf d0 d1 d2 0 % 1000 = d0 := Nat.mod_eq_of_lt h0
  have e1 : drawsOf d0 d1 d2 1 % 100 = d1 := Nat.mod_eq_of_lt h1
  have e2 : drawsOf d0 d1 d2 2 % 6 = d2 := Nat.mod_eq_of_lt h2
  rw [e0, e1] at hg
  rw [e2] at hc
  exact ⟨c, hc, hm, hg⟩

/-- C9: the fields `insert` generates are the images of its three draws under
`draw + 1`, `draw + 100` and `cities[draw]`, the draws being `Intn 1000`,
`Intn 100` and `Intn 6`.  These maps are bijections from [0, 1000) onto
[1, 1000], from [0, 100) onto [100, 199] and from [0, 6) onto the six pairwise
distinct names, and `Intn n` returns exactly the numbers below `n`.  So every
row with fields in these ranges is generated by exactly one triple of draws. -/
theorem draws_bijective :
    (∀ raw : Nat → Nat, ∃ d0 d1 d2 row,
      Intn 1000 (raw 0) = .ok d0 ∧ Intn 100 (raw 1) = .ok d1 ∧
      Intn mainCities.length (raw 2) = .ok d2 ∧ d0 < 1000 ∧ d1 < 100 ∧ d2 < 6 ∧
      genRow mainCities raw = .ok row ∧
      row.custid = custidOf d0 ∧ row.amount = amountOf d1 ∧
      cityOf mainCities d2 = .ok row.city) ∧
    (∀ (env : Env) (st : St), st.cities = mainCities → ∃ d0 d1 d2 c st1,
      Intn 1000 (env.rnd st.iter 0) = .ok d0 ∧ Intn 100 (env.rnd st.iter 1) = .ok d1 ∧
      Intn st.cities.length (env.rnd st.iter 2) = .ok d2 ∧
      cityOf st.cities d2 = .ok c ∧ insert env st = .ok st1 ∧
      Event.exec insertQ [.int (custidOf d0), .int (amountOf d1), .str c] ∈ st1.trace) ∧
    Set.BijOn custidOf (Set.Ico 0 1000) (Set.Icc 1 1000) ∧
    Set.BijOn amountOf (Set.Ico 0 100) (Set.Icc 100 199) ∧
    Set.BijOn (cityOf mainCities) (Set.Ico 0 6) {r | ∃ c, c ∈ mainCities ∧ r = .ok c} ∧
    mainCities.Nodup ∧ mainCities.length = 6 ∧
    (∀ n raw d, Intn n raw = .ok d → d < n) ∧
    (∀ n d, d < n → ∃ raw, Intn n raw = .ok d) ∧
    (∀ row : Row, 1 ≤ row.custid → row.custid ≤ 1000 → 100 ≤ row.amount →
      row.amount ≤ 199 → row.city ∈ mainCities →
      ∃! d : Nat × Nat × Nat, d.1 < 1000 ∧ d.2.1 < 100 ∧ d.2.2 < 6 ∧
        genRow mainCities (drawsOf d.1 d.2.1 d.2.2) = .ok row) := by
  obtain ⟨hcust, hamt, hcity, hnodup, hlen, hlt, hsurj⟩ := fieldMaps_bijOn
  have hgen : ∀ raw : Nat → Nat, ∃ d0 d1 d2 row,
      Intn 1000 (raw 0) = .ok d0 ∧ Intn 100 (raw 1) = .ok d1 ∧
      Intn mainCities.length (raw 2) = .ok d2 ∧ d0 < 1000 ∧ d1 < 100 ∧ d2 < 6 ∧
      genRow mainCities raw = .ok row ∧
      row.custid = custidOf d0 ∧ row.amount = amountOf d1 ∧
      cityOf mainCities d2 = .ok row.city := by
    intro raw
    obtain ⟨c, hc, -, hg⟩ := genRow_main raw
    exact ⟨raw 0 % 1000, raw 1 % 100, raw 2 % 6, _, by simp [Intn], by simp [Intn],
      by simp [Intn, hlen], Nat.mod_lt _ (by norm_num), Nat.mod_lt _ (by norm_num),
      Nat.mod_lt _ (by norm_num), hg, rfl, rfl, hc⟩
  refine ⟨hgen, ?_, hcust, hamt, hcity, hnodup, hlen, hlt, hsurj, ?_⟩
  · intro env st h
    obtain ⟨d0, d1, d2, row, h0, h1, h2, -, -, -, hg, hcu, ham, hci⟩ := hgen (env.rnd st.iter)
    have hrow : env.row st.iter = row := by simp [Env.row, hg]
    refine ⟨d0, d1, d2, row.city, _, h0, h1, by rw [h]; exact h2, by rw [h]; exact hci,
      insert_main env st h, ?_⟩
    rw [← hcu, ← ham]
    cases hE : env.insertErr st.iter <;> simp [hrow, Row.args]
  · intro row hc1 hc2 ha1 ha2 hmem
    obtain ⟨d2, hd2, hd2c⟩ := hcity.surjOn ⟨row.city, hmem, rfl⟩
    simp only [Set.mem_Ico] at hd2
    refine ⟨(row.custid - 1, row.amount - 100, d2), ⟨by simp; omega, by simp; omega, hd2.2, ?_⟩, ?_⟩
    · obtain ⟨c, hc, -, hg⟩ := genRow_drawsOf (row.custid - 1) (row.amount - 100) d2
        (by omega) (by omega) hd2.2
      rw [hd2c] at hc
      injection hc with hc
      simp only [hg, custidOf, amountOf, ← hc]
      congr 1
      cases row
      simp at hc1 ha1 ⊢
      omega
    · rintro ⟨e0, e1, e2⟩ ⟨he0, he1, he2, hg⟩
      simp only at he0 he1 he2 hg
      obtain ⟨c, hc, -, hg2⟩ := genRow_drawsOf e0 e1 e2 he0 he1 he2
      rw [hg2] at hg
      injection hg with hg
      have h1 : custidOf e0 = row.custid := by rw [← hg]
      have h2 : amountOf e1 = row.amount := by rw [← hg]
      have h3 : c = row.city := by rw [← hg]
      have h4 : e2 = d2 := by
        apply hcity.injOn
        · simp only [Set.mem_Ico]; omega
        · simp only [Set.mem_Ico]; omega
        · rw [hc, hd2c, h3]
      simp only [custidOf, amountOf] at h1 h2
      simp only [Prod.mk.injEq]
      omega

/-- C2: when `sql.Open` or `db.Ping` fails, the run ends with `log.Fatal`
(the error is logged, the status is 1) before any statement is sent: the trace
holds no `db.Exec` at all, so no CREATE TABLE, no INSERT and no DROP TABLE. -/
theorem connection_failure_is_fatal (env : Env) (n : Nat)
    (h : env.openErr ≠ none ∨ env.pingErr ≠ none) :
    (main env n).flow = .exited 1 ∧
    ((∃ err, env.openErr = some err ∧ (main env n).trace =
        [.sleep 5, .sqlOpen driverName dataSourceName, .log err, .exit 1]) ∨
     (∃ err, env.openErr = none ∧ env.pingErr = some err ∧ (main env n).trace =
        [.sleep 5, .sqlOpen driverName dataSourceName, .ping, .log err, .exit 1])) ∧
    (∀ q args, Event.exec q args ∉ (main env n).trace) ∧
    (∀ e, e ∈ (main env n).trace →
      e.isCreate = false ∧ e.isInsert = false ∧ e.isDrop = false) := by
  cases ho : env.openErr with
  | some err =>
    have hm := main_openFail env err ho n
    rw [hm]
    refine ⟨rfl, Or.inl ⟨err, rfl, rfl⟩, ?_, ?_⟩
    · intro q args hmem
      simp at hmem
    · intro e hmem
      simp at hmem
      rcases hmem with rfl | rfl | rfl | rfl <;> simp [Event.isCreate, Event.isInsert, Event.isDrop]
  | none =>
    cases hp : env.pingErr with
    | none => rcases h with h | h <;> contradiction
    | some err =>
      have hm := main_pingFail env err ho hp n
      rw [hm]
      refine ⟨rfl, Or.inr ⟨err, rfl, rfl, rfl⟩, ?_, ?_⟩
      · intro q args hmem
        simp at hmem
      · intro e hmem
        simp at hmem
        rcases hmem with rfl | rfl | rfl | rfl | rfl <;>
          simp [Event.isCreate, Event.isInsert, Event.isDrop]

/-- C2 at a concrete run: the liveness check fails. -/
theorem connection_failure_is_fatal_witness :
    ({ Env.sample with pingErr := some "connection refused" } : Env).pingErr ≠ none ∧
    (main { Env.sample with pingErr := some "connection refused" } 4).flow = .exited 1 ∧
    (∀ q args, Event.exec q args ∉
      (main { Env.sample with pingErr := some "connection refused" } 4).trace) :=
  ⟨by simp,
   (connection_failure_is_fatal { Env.sample with pingErr := some "connection refused" } 4
      (Or.inr (by simp))).1,
   (connection_failure_is_fatal { Env.sample with pingErr := some "connection refused" } 4
      (Or.inr (by simp))).2.2.1⟩

/-- C6: when the CREATE TABLE statement fails, the run ends there with
`log.Fatal`: its trace is the startup actions, the failed statement, one log
line and exit status 1.  No insert and no drop is sent, the connection is not
closed, "table created" is not logged, and the only deferred call registered
is `db.Close` (the drop is not registered), which does not run. -/
theorem create_failure_is_fatal (env : Env) (err : String) (n : Nat)
    (ho : env.openErr = none) (hp : env.pingErr = none) (hc : env.createErr = some err) :
    (main env n).trace =
      [.sleep 5, .sqlOpen driverName dataSourceName, .ping, .exec createQ [],
        .log ("failed to create table" ++ err), .exit 1] ∧
    (main env n).flow = .exited 1 ∧
    (∀ e, e ∈ (main env n).trace → e.isInsert = false ∧ e.isDrop = false) ∧
    Event.dbClose ∉ (main env n).trace ∧
    Event.log "table created" ∉ (main env n).trace ∧
    (main env n).deferred = [.dbClose] := by
  have hm := main_createFail env err ho hp hc n
  rw [hm]
  refine ⟨rfl, rfl, ?_, ?_, ?_, rfl⟩
  · intro e hmem
    simp at hmem
    rcases hmem with rfl | rfl | rfl | rfl | rfl | rfl <;>
      simp [Event.isInsert, Event.isDrop, createQ_ne_insertQ, dropQ_ne_createQ.symm]
  · simp
  · simp
    exact fun h => createFail_ne_created err h.symm

/-- C6 at a concrete run: the table already exists. -/
theorem create_failure_is_fatal_witness :
    ({ Env.sample with createErr := some " already exists" } : Env).openErr = none ∧
    ({ Env.sample with createErr := some " already exists" } : Env).pingErr = none ∧
    ({ Env.sample with createErr := some " already exists" } : Env).createErr =
      some " already exists" ∧
    (main { Env.sample with createErr := some " already exists" } 4).trace =
      [.sleep 5, .sqlOpen driverName dataSourceName, .ping, .exec createQ [],
        .log ("failed to create table" ++ " already exists"), .exit 1] :=
  ⟨rfl, rfl, rfl,
   (create_failure_is_fatal { Env.sample with createErr := some " already exists" }
      " already exists" 4 rfl rfl rfl).1⟩
theorem accept_insert (db : Storage) (row : Row) :
    db.accept createQ insertQ row.args =
      { nextval := db.nextval + 1,
        inserted := db.inserted ++ [⟨db.nextval, row.custid, row.amount, row.city⟩] } := by
  unfold Storage.accept
  rw [insertColumns_insertQ, serialColumns_createQ]
  simp [Row.args, List.lookup, natOf, strOf]

theorem main_early (env : Env) (n : Nat)
    (h : env.openErr ≠ none ∨ env.pingErr ≠ none ∨ env.createErr ≠ none) :
    (main env n).flow = .exited 1 ∧ (main env n).db.inserted = [] ∧
    ∀ e, e ∈ (main env n).trace →
      e = .sleep 5 ∨ e = .sqlOpen driverName dataSourceName ∨ e = .ping ∨
        e = .exec createQ [] ∨ (∃ l, e = .log l) ∨ e = .exit 1 := by
  cases ho : env.openErr with
  | some err =>
    rw [main_openFail env err ho n]
    refine ⟨rfl, rfl, ?_⟩
    intro e he
    simp at he
    rcases he with rfl | rfl | rfl | rfl <;> simp
  | none =>
    cases hp : env.pingErr with
    | some err =>
      rw [main_pingFail env err ho hp n]
      refine ⟨rfl, rfl, ?_⟩
      intro e he
      simp at he
      rcases he with rfl | rfl | rfl | rfl | rfl <;> simp
    | none =>
      cases hc : env.createErr with
      | some err =>
        rw [main_createFail env err ho hp hc n]
        refine ⟨rfl, rfl, ?_⟩
        intro e he
        simp at he
        rcases he with rfl | rfl | rfl | rfl | rfl | rfl <;> simp
      | none => rcases h with h | h | h <;> contradiction

theorem main_late (env : Env) (n : Nat) (ho : env.openErr = none) (hp : env.pingErr = none)
    (hc : env.createErr = none) :
    main env n = runningState env n ∨
      ∃ k, k < n ∧ env.firstSignalAt k ∧ main env n = stoppedState env k := by
  rcases signal_cases env n with h | ⟨k, hk, hf⟩
  · exact Or.inl (main_running env ho hp hc n h)
  · exact Or.inr ⟨k, hk, hf, main_stopped env ho hp hc k n hf hk⟩

theorem startup_cases (env : Env) :
    (env.openErr ≠ none ∨ env.pingErr ≠ none ∨ env.createErr ≠ none) ∨
      (env.openErr = none ∧ env.pingErr = none ∧ env.createErr = none) := by
  cases env.openErr <;> cases env.pingErr <;> cases env.createErr <;> simp

/-- C5: in every run that sends the DROP TABLE statement and in which that
statement fails, the run ends with the failed statement, its log line and exit
status 1: `db.Close` is never called (it stays registered and unrun) and
"table dropped" is never logged. -/
theorem drop_failure_skips_close (env : Env) (err : String) (n : Nat)
    (hd : env.dropErr = some err) (hrun : Event.exec dropQ [] ∈ (main env n).trace) :
    (main env n).flow = .exited 1 ∧
    Event.dbClose ∉ (main env n).trace ∧
    Event.log "table dropped" ∉ (main env n).trace ∧
    (∃ before, (main env n).trace =
      before ++ [.exec dropQ [], .log ("failed to drop table " ++ err), .exit 1]) ∧
    (main env n).deferred = [.dbClose] := by
  rcases startup_cases env with h | ⟨ho, hp, hc⟩
  · obtain ⟨-, -, hev⟩ := main_early env n h
    rcases hev _ hrun with h1 | h1 | h1 | h1 | ⟨l, h1⟩ | h1
    · cases h1
    · cases h1
    · cases h1
    · injection h1 with hq _
      exact absurd hq dropQ_ne_createQ
    · cases h1
    · cases h1
  · rcases main_late env n ho hp hc with h | ⟨k, -, -, h⟩
    · rw [h] at hrun
      simp only [runningState, List.mem_append] at hrun
      rcases hrun with h1 | h1
      · exact absurd h1 (drop_not_mem_start [])
      · exact absurd h1 (drop_not_mem_passes env n [])
    · rw [h]
      refine ⟨by simp [stoppedState, hd], ?_, ?_,
        ⟨startTrace ++ passes env k ++ [.log "application stopped"], by
          simp [stoppedState, stopTrace, hd]⟩,
        by simp [stoppedState, hd]⟩
      · simp [stoppedState, stopTrace, hd, startTrace, close_not_mem_passes]
      · simp [stoppedState, stopTrace, hd, startTrace, dropped_not_mem_passes]
        exact fun h => dropFail_ne_dropped err h.symm

/-- C5 at a concrete run: three inserts, a signal, and a failing drop. -/
theorem drop_failure_skips_close_witness :
    ({ Env.sample with dropErr := some "boom" } : Env).dropErr = some "boom" ∧
    Event.exec dropQ [] ∈ (main { Env.sample with dropErr := some "boom" } 5).trace ∧
    (main { Env.sample with dropErr := some "boom" } 5).flow = .exited 1 ∧
    Event.dbClose ∉ (main { Env.sample with dropErr := some "boom" } 5).trace :=
  ⟨rfl, by decide,
   (drop_failure_skips_close { Env.sample with dropErr := some "boom" } "boom" 5 rfl
      (by decide)).1,
   (drop_failure_skips_close { Env.sample with dropErr := some "boom" } "boom" 5 rfl
      (by decide)).2.1⟩
theorem panic_not_mem_passes (env : Env) (k : Nat) (msg : String) :
    Event.panic msg ∉ passes env k := by
  intro h
  rcases mem_passes env k _ h with h1 | ⟨i, -, h1 | ⟨err, -, h1⟩⟩ <;> cases h1

theorem insert_nil (env : Env) (st : St) (h : st.cities = []) :
    insert env st = .error "invalid argument to Intn" := by
  unfold insert
  rw [h]
  simp [genRow, Intn, bind, Except.bind]

/-- C10: in every run of `main`, a pass of the loop starts only in a state in
which `cities` is the six-element list, and there `insert` returns without a
panic: the argument of `rand.Intn(len(cities))` is 6 and the index it returns
is within bounds.  No run raises a panic or exits with the panic status 2.
On the uninitialised, empty `cities` the call panics in `rand.Intn`. -/
theorem insert_never_panics (env : Env) (n : Nat) :
    (∀ msg, Event.panic msg ∉ (main env n).trace) ∧
    (main env n).flow ≠ .exited 2 ∧
    ((main env n).flow = .running →
      (main env n).cities = mainCities ∧ (main env n).cities.length = 6 ∧
      ∃ st1, insert env (main env n) = .ok st1) ∧
    (∀ raw, ∃ i c, Intn mainCities.length raw = .ok i ∧ i < mainCities.length ∧
      cityOf mainCities i = .ok c) ∧
    St.initial.cities = [] ∧
    (∀ st : St, st.cities = [] → insert env st = .error "invalid argument to Intn") := by
  have hdraw : ∀ raw, ∃ i c, Intn mainCities.length raw = .ok i ∧ i < mainCities.length ∧
      cityOf mainCities i = .ok c := by
    intro raw
    obtain ⟨c, hc, -⟩ := cityOf_main (raw % 6) (Nat.mod_lt _ (by norm_num))
    exact ⟨raw % 6, c, by simp [Intn, mainCities], Nat.mod_lt _ (by norm_num), hc⟩
  refine ⟨?_, ?_, ?_, hdraw, rfl, fun st h => insert_nil env st h⟩
  · intro msg hmem
    rcases startup_cases env with h | ⟨ho, hp, hc⟩
    · obtain ⟨-, -, hev⟩ := main_early env n h
      rcases hev _ hmem with h1 | h1 | h1 | h1 | ⟨l, h1⟩ | h1 <;> cases h1
    · rcases main_late env n ho hp hc with h | ⟨k, -, -, h⟩
      · rw [h] at hmem
        simp [runningState, startTrace, panic_not_mem_passes] at hmem
      · rw [h] at hmem
        cases hD : env.dropErr <;>
          simp [stoppedState, stopTrace, startTrace, panic_not_mem_passes, hD] at hmem
  · rcases startup_cases env with h | ⟨ho, hp, hc⟩
    · rw [(main_early env n h).1]
      simp
    · rcases main_late env n ho hp hc with h | ⟨k, -, -, h⟩
      · rw [h]
        simp [runningState]
      · rw [h]
        cases hD : env.dropErr <;> simp [stoppedState, hD]
  · intro hrun
    rcases startup_cases env with h | ⟨ho, hp, hc⟩
    · rw [(main_early env n h).1] at hrun
      cases hrun
    · rcases main_late env n ho hp hc with h | ⟨k, -, -, h⟩
      · rw [h]
        exact ⟨rfl, rfl, _, insert_main env (runningState env n) rfl⟩
      · rw [h] at hrun
        cases hD : env.dropErr <;> simp [stoppedState, hD] at hrun

theorem dbAfter_sorted (env : Env) (k : Nat) :
    ((dbAfter env k).inserted.map StoredRow.orderid).Sorted (· < ·) ∧
      ∀ r, r ∈ (dbAfter env k).inserted → r.orderid < (dbAfter env k).nextval := by
  induction k with
  | zero => simp [dbAfter]
  | succ k ih =>
    obtain ⟨hs, hb⟩ := ih
    cases hE : env.insertErr k with
    | some err =>
      simp only [dbAfter, hE, Storage.refuse]
      exact ⟨hs, fun r hr => Nat.lt_of_lt_of_le (hb r hr) (Nat.le_add_right _ _)⟩
    | none =>
      simp only [dbAfter, hE, accept_insert]
      constructor
      · simp only [List.map_append, List.map_cons, List.map_nil, List.Sorted]
        rw [List.pairwise_append]
        refine ⟨hs, by simp, ?_⟩
        intro a ha b hb1
        simp only [List.mem_singleton] at hb1
        obtain ⟨r, hr, rfl⟩ := List.mem_map.mp ha
        rw [hb1]
        exact hb r hr
      · intro r hr
        simp only [List.mem_append, List.mem_singleton] at hr
        rcases hr with hr | rfl
        · exact Nat.lt_succ_of_lt (hb r hr)
        · exact Nat.lt_succ_self _

theorem main_db (env : Env) (n : Nat) :
    (main env n).db.inserted = [] ∨ ∃ k, (main env n).db = dbAfter env k := by
  rcases startup_cases env with h | ⟨ho, hp, hc⟩
  · exact Or.inl (main_early env n h).2.1
  · rcases main_late env n ho hp hc with h | ⟨k, -, -, h⟩
    · exact Or.inr ⟨n, by rw [h]; rfl⟩
    · exact Or.inr ⟨k, by rw [h]; rfl⟩

theorem stopTrace_not_insert (env : Env) (e : Event) (he : e ∈ stopTrace env) :
    e.isInsert = false := by
  cases hD : env.dropErr with
  | none =>
    simp [stopTrace, hD] at he
    rcases he with rfl | rfl | rfl | rfl | rfl <;> simp [Event.isInsert, dropQ_ne_insertQ]
  | some err =>
    simp [stopTrace, hD] at he
    rcases he with rfl | rfl | rfl | rfl <;> simp [Event.isInsert, dropQ_ne_insertQ]

theorem main_inserts (env : Env) (n : Nat) (e : Event) (he : e ∈ (main env n).trace)
    (hi : e.isInsert = true) : ∃ i, e = .exec insertQ (env.row i).args := by
  rcases startup_cases env with h | ⟨ho, hp, hc⟩
  · obtain ⟨-, -, hev⟩ := main_early env n h
    rcases hev _ he with h1 | h1 | h1 | h1 | ⟨l, h1⟩ | h1 <;> rw [h1] at hi <;>
      simp [Event.isInsert, createQ_ne_insertQ] at hi
  · have hpass : ∀ k, e ∈ passes env k → ∃ i, e = .exec insertQ (env.row i).args := by
      intro k hk
      rcases mem_passes env k _ hk with h1 | ⟨i, -, h1 | ⟨err, -, h1⟩⟩
      · rw [h1] at hi; simp [Event.isInsert] at hi
      · exact ⟨i, h1⟩
      · rw [h1] at hi; simp [Event.isInsert] at hi
    have hstart : e ∉ startTrace := by
      intro hs
      simp [startTrace] at hs
      rcases hs with h1 | h1 | h1 | h1 | h1 <;> rw [h1] at hi <;>
        simp [Event.isInsert, createQ_ne_insertQ] at hi
    rcases main_late env n ho hp hc with h | ⟨k, -, -, h⟩
    · rw [h] at he
      simp only [runningState, List.mem_append] at he
      rcases he with h1 | h1
      · exact absurd h1 hstart
      · exact hpass n h1
    · rw [h] at he
      simp only [stoppedState, List.mem_append] at he
      rcases he with (h1 | h1) | h1
      · exact absurd h1 hstart
      · exact hpass k h1
      · have hno := stopTrace_not_insert env e h1
        rw [hi] at hno
        cases hno

theorem withRnd_pendingAt (env : Env) (r : Nat → Nat → Nat) (k : Nat) :
    ({ env with rnd := r } : Env).pendingAt k = env.pendingAt k := by
  induction k with
  | zero => rfl
  | succ k ih =>
    have h1 : ({ env with rnd := r } : Env).sigInsert k = env.sigInsert k := rfl
    have h2 : ({ env with rnd := r } : Env).sigSleep k = env.sigSleep k := rfl
    simp only [Env.pendingAt, ih, h1, h2]

theorem withRnd_dbAfter (env : Env) (r : Nat → Nat → Nat) (k : Nat) :
    (dbAfter { env with rnd := r } k).nextval = (dbAfter env k).nextval ∧
    (dbAfter { env with rnd := r } k).inserted.map StoredRow.orderid =
      (dbAfter env k).inserted.map StoredRow.orderid := by
  induction k with
  | zero => exact ⟨rfl, rfl⟩
  | succ k ih =>
    obtain ⟨h1, h2⟩ := ih
    have hE : ({ env with rnd := r } : Env).insertErr k = env.insertErr k := rfl
    have hS : ({ env with rnd := r } : Env).seqSkip k = env.seqSkip k := rfl
    cases hk : env.insertErr k with
    | some err =>
      rw [hk] at hE
      simp only [dbAfter, hE, hk, hS, Storage.refuse, h1, h2, and_self]
    | none =>
      rw [hk] at hE
      simp only [dbAfter, hE, hk, accept_insert, h1, List.map_append, h2, List.map_cons,
        List.map_nil, and_self]

theorem main_execs (env : Env) (n : Nat) (q : String) (args : List Value)
    (he : Event.exec q args ∈ (main env n).trace) :
    (q = createQ ∧ args = []) ∨ (q = dropQ ∧ args = []) ∨
      (q = insertQ ∧ ∃ i, args = (env.row i).args) := by
  have hstart : Event.exec q args ∈ startTrace → q = createQ ∧ args = [] := by
    intro h
    simpa [startTrace] using h
  have hpass : ∀ k, Event.exec q args ∈ passes env k →
      q = insertQ ∧ ∃ i, args = (env.row i).args := by
    intro k hk
    rcases mem_passes env k _ hk with h1 | ⟨i, -, h1 | ⟨err, -, h1⟩⟩
    · cases h1
    · injection h1 with h1 h2
      exact ⟨h1, i, h2⟩
    · cases h1
  have hstop : Event.exec q args ∈ stopTrace env → q = dropQ ∧ args = [] := by
    intro h
    cases hD : env.dropErr <;> simpa [stopTrace, hD] using h
  rcases startup_cases env with h | ⟨ho, hp, hc⟩
  · obtain ⟨-, -, hev⟩ := main_early env n h
    rcases hev _ he with h1 | h1 | h1 | h1 | ⟨l, h1⟩ | h1
    · cases h1
    · cases h1
    · cases h1
    · injection h1 with h1 h2
      exact Or.inl ⟨h1, h2⟩
    · cases h1
    · cases h1
  · rcases main_late env n ho hp hc with h | ⟨k, -, -, h⟩
    · rw [h] at he
      simp only [runningState, List.mem_append] at he
      rcases he with h1 | h1
      · exact Or.inl (hstart h1)
      · exact Or.inr (Or.inr (hpass n h1))
    · rw [h] at he
      simp only [stoppedState, List.mem_append] at he
      rcases he with (h1 | h1) | h1
      · exact Or.inl (hstart h1)
      · exact Or.inr (Or.inr (hpass k h1))
      · exact Or.inr (Or.inl (hstop h1))

theorem main_orderids_withRnd (env : Env) (r : Nat → Nat → Nat) (n : Nat) :
    (main { env with rnd := r } n).db.inserted.map StoredRow.orderid =
      (main env n).db.inserted.map StoredRow.orderid := by
  rcases startup_cases env with h | ⟨ho, hp, hc⟩
  · have h1 := (main_early env n h).2.1
    have h2 := (main_early { env with rnd := r } n h).2.1
    rw [h1, h2]
  · rcases signal_cases env n with hs | ⟨k, hk, hf⟩
    · have h1 := main_running env ho hp hc n hs
      have h2 := main_running { env with rnd := r } ho hp hc n
        (fun j hj => by rw [withRnd_pendingAt]; exact hs j hj)
      rw [h1, h2]
      exact (withRnd_dbAfter env r n).2
    · have h1 := main_stopped env ho hp hc k n hf hk
      have h2 := main_stopped { env with rnd := r } ho hp hc k n
        ⟨by rw [withRnd_pendingAt]; exact hf.1,
         fun j hj => by rw [withRnd_pendingAt]; exact hf.2 j hj⟩ hk
      rw [h1, h2]
      exact (withRnd_dbAfter env r k).2

/-- C8: the generator never assigns `orderid`.  The insert statement names
exactly the columns custid, amount and city and has three value expressions;
every statement a run sends is the CREATE TABLE, the drop, or that insert with
exactly three parameters (custid, amount, city).  The table declares `orderid`
as `SERIAL`: a successful call of `insert` stores its row under the value of
the storage counter, which then advances, and a failed call stores nothing.
So the `orderid` values of the rows stored in a run are strictly increasing in
insertion order, hence pairwise distinct, whatever inserts fail, and they do
not depend on what the generator draws. -/
theorem orderid_assigned_by_storage :
    insertColumns insertQ = ["custid", "amount", "city"] ∧
    insertValues insertQ = ["$1", "$2", "$3"] ∧
    "orderid" ∉ insertColumns insertQ ∧
    serialColumns createQ = ["orderid"] ∧
    (∀ env n q args, Event.exec q args ∈ (main env n).trace →
      (q = createQ ∧ args = []) ∨ (q = dropQ ∧ args = []) ∨
        (q = insertQ ∧ ∃ c a city, args = [.int c, .int a, .str city])) ∧
    (∀ (env : Env) (st : St), st.cities = mainCities →
      ∃ row st1, genRow st.cities (env.rnd st.iter) = .ok row ∧ insert env st = .ok st1 ∧
        (∃ more, st1.trace =
          st.trace ++ .exec insertQ [.int row.custid, .int row.amount, .str row.city] :: more ∧
          ∀ q args, Event.exec q args ∉ more) ∧
        (env.insertErr st.iter = none →
          st1.db = { nextval := st.db.nextval + 1,
                     inserted := st.db.inserted ++
                       [⟨st.db.nextval, row.custid, row.amount, row.city⟩] }) ∧
        (env.insertErr st.iter ≠ none →
          st1.db.inserted = st.db.inserted ∧ st.db.nextval ≤ st1.db.nextval)) ∧
    (∀ env n, ((main env n).db.inserted.map StoredRow.orderid).Sorted (· < ·)) ∧
    (∀ env n, ((main env n).db.inserted.map StoredRow.orderid).Nodup) ∧
    (∀ (env : Env) (r : Nat → Nat → Nat) (n : Nat),
      (main { env with rnd := r } n).db.inserted.map StoredRow.orderid =
        (main env n).db.inserted.map StoredRow.orderid) ∧
    (main { Env.sample with insertErr := fun i => if i = 1 then some "boom" else none,
                            seqSkip := fun _ => 1 } 5).db.inserted.map StoredRow.orderid
      = [1, 3] := by
  have hsorted : ∀ env n, ((main env n).db.inserted.map StoredRow.orderid).Sorted (· < ·) := by
    intro env n
    rcases main_db env n with h | ⟨k, h⟩
    · rw [h]; simp
    · rw [h]; exact (dbAfter_sorted env k).1
  refine ⟨insertColumns_insertQ, by decide, by decide, serialColumns_createQ, ?_, ?_, hsorted,
    fun env n => (hsorted env n).nodup, main_orderids_withRnd, by decide⟩
  · intro env n q args he
    rcases main_execs env n q args he with h | h | ⟨h, i, hi⟩
    · exact Or.inl h
    · exact Or.inr (Or.inl h)
    · exact Or.inr (Or.inr ⟨h, _, _, _, hi⟩)
  · intro env st h
    have hg : genRow st.cities (env.rnd st.iter) = .ok (env.row st.iter) := by
      rw [h]; exact genRow_row env st.iter
    refine ⟨env.row st.iter, _, hg, insert_main env st h, ?_, ?_, ?_⟩
    · cases hE : env.insertErr st.iter with
      | none => exact ⟨[], by simp [Row.args], by simp⟩
      | some err =>
        exact ⟨[.log ("failed to insert order " ++ err)], by simp [Row.args], by simp⟩
    · intro hE
      simp only [hE, accept_insert]
    · intro hE
      cases hE2 : env.insertErr st.iter with
      | none => exact absurd hE2 hE
      | some err => simp [Storage.refuse]

theorem filter_insert_insertEvents (env : Env) (i : Nat) :
    (insertEvents env i).filter Event.isInsert = [.exec insertQ (env.row i).args] := by
  cases hE : env.insertErr i <;> simp [insertEvents, hE, Event.isInsert]

theorem count_insert_passes (env : Env) (k : Nat) :
    ((passes env k).filter Event.isInsert).length = k := by
  induction k with
  | zero => rfl
  | succ k ih =>
    simp [passes, List.filter_append, filter_insert_insertEvents, ih, Event.isInsert]

theorem count_sleep_passes (env : Env) (k : Nat) :
    (passes env k).count (.sleep 3) = k := by
  induction k with
  | zero => rfl
  | succ k ih =>
    cases hE : env.insertErr k <;>
      simp [passes, List.count_append, insertEvents, hE, ih]

theorem filter_drop_passes (env : Env) (k : Nat) :
    (passes env k).filter Event.isDrop = [] := by
  rw [List.filter_eq_nil_iff]
  intro e he
  rcases mem_passes env k e he with h1 | ⟨i, -, h1 | ⟨err, -, h1⟩⟩ <;> rw [h1] <;>
    simp [Event.isDrop, dropQ_ne_insertQ.symm]

theorem logLines_append (xs ys : List Event) :
    logLines (xs ++ ys) = logLines xs ++ logLines ys := by
  induction xs with
  | nil => rfl
  | cons x xs ih => cases x <;> simp [logLines, ih]

theorem mem_logLines (xs : List Event) (l : String) (h : l ∈ logLines xs) :
    Event.log l ∈ xs := by
  induction xs with
  | nil => simp [logLines] at h
  | cons x xs ih =>
    cases x <;> simp [logLines] at h ⊢ <;> first | exact ih h | skip
    rcases h with h | h
    · exact Or.inl h
    · exact Or.inr (ih h)

/-- C7: when open, ping, create and drop succeed and the signal is first in the
channel at the loop check after `k` passes, the trace of the run is exactly the
startup delay, open, ping, create, "table created", the `k` passes (each one
call of `insert` and one sleep of 3 seconds), "application stopped", drop,
"table dropped", close and exit status 0.  The trace holds `k` insert
statements and `k` sleeps of 3 seconds; the log is "table created", the lines
of the failed inserts, "application stopped" and "table dropped". -/
theorem clean_run_trace (env : Env) (k n : Nat)
    (ho : env.openErr = none) (hp : env.pingErr = none) (hc : env.createErr = none)
    (hd : env.dropErr = none) (hs : env.firstSignalAt k) (hn : k < n) :
    (main env n).trace =
      [.sleep 5, .sqlOpen driverName dataSourceName, .ping, .exec createQ [],
        .log "table created"] ++ passes env k ++
      [.log "application stopped", .exec dropQ [], .log "table dropped", .dbClose, .exit 0] ∧
    (main env n).flow = .exited 0 ∧
    ((main env n).trace.filter Event.isInsert).length = k ∧
    (main env n).trace.count (.sleep 3) = k ∧
    logLines (main env n).trace =
      "table created" :: logLines (passes env k) ++ ["application stopped", "table dropped"] ∧
    (∀ l, l ∈ logLines (passes env k) →
      ∃ i err, i < k ∧ env.insertErr i = some err ∧ l = "failed to insert order " ++ err) ∧
    ((∀ i, i < k → env.insertErr i = none) → logLines (passes env k) = []) := by
  have hm := main_stopped env ho hp hc k n hs hn
  have htrace : (main env n).trace =
      [.sleep 5, .sqlOpen driverName dataSourceName, .ping, .exec createQ [],
        .log "table created"] ++ passes env k ++
      [.log "application stopped", .exec dropQ [], .log "table dropped", .dbClose, .exit 0] := by
    rw [hm]
    simp [stoppedState, stopTrace, startTrace, hd]
  have hlines : ∀ l, l ∈ logLines (passes env k) →
      ∃ i err, i < k ∧ env.insertErr i = some err ∧ l = "failed to insert order " ++ err := by
    intro l hl
    rcases mem_passes env k _ (mem_logLines _ l hl) with h1 | ⟨i, hi, h1 | ⟨err, he, h1⟩⟩
    · cases h1
    · cases h1
    · injection h1 with h1
      exact ⟨i, err, hi, he, h1⟩
  refine ⟨htrace, by rw [hm]; simp [stoppedState, hd], ?_, ?_, ?_, hlines, ?_⟩
  · rw [htrace]
    simp [List.filter_append, count_insert_passes, Event.isInsert, createQ_ne_insertQ,
      dropQ_ne_insertQ]
  · rw [htrace]
    simp [List.count_append, count_sleep_passes]
  · rw [htrace]
    simp [logLines_append, logLines]
  · intro hall
    rw [List.eq_nil_iff_forall_not_mem]
    intro l hl
    obtain ⟨i, err, hi, he, -⟩ := hlines l hl
    rw [hall i hi] at he
    cases he

/-- C7 at a concrete run: three inserts, then the signal during the third sleep. -/
theorem clean_run_trace_witness :
    Env.sample.openErr = none ∧ Env.sample.pingErr = none ∧ Env.sample.createErr = none ∧
    Env.sample.dropErr = none ∧ Env.sample.firstSignalAt 3 ∧ 3 < 5 ∧
    (main Env.sample 5).trace =
      [.sleep 5, .sqlOpen driverName dataSourceName, .ping, .exec createQ [],
        .log "table created"] ++ passes Env.sample 3 ++
      [.log "application stopped", .exec dropQ [], .log "table dropped", .dbClose, .exit 0] :=
  ⟨rfl, rfl, rfl, rfl,
   ⟨by decide, fun j hj => by interval_cases j <;> decide⟩, by decide,
   (clean_run_trace Env.sample 3 5 rfl rfl rfl rfl
      ⟨by decide, fun j hj => by interval_cases j <;> decide⟩ (by decide)).1⟩
theorem withInsertOk_insertErr (env : Env) (i j : Nat) :
    (env.withInsertOk i).insertErr j = if j = i then none else env.insertErr j := rfl

theorem withInsertOk_row (env : Env) (i j : Nat) : (env.withInsertOk i).row j = env.row j := rfl

theorem withInsertOk_pendingAt (env : Env) (i k : Nat) :
    (env.withInsertOk i).pendingAt k = env.pendingAt k := by
  induction k with
  | zero => rfl
  | succ k ih =>
    have h1 : (env.withInsertOk i).sigInsert k = env.sigInsert k := rfl
    have h2 : (env.withInsertOk i).sigSleep k = env.sigSleep k := rfl
    simp only [Env.pendingAt, ih, h1, h2]

theorem withInsertOk_passes (env : Env) (i k : Nat) (h : k ≤ i) :
    passes (env.withInsertOk i) k = passes env k := by
  induction k with
  | zero => rfl
  | succ k ih =>
    have hk : k ≠ i := by omega
    simp only [passes, ih (by omega), insertEvents, withInsertOk_row, withInsertOk_insertErr, hk,
      if_false]

/-- C4: when the signal is first in the channel at the loop check after `k`
passes (in particular when it is delivered during the sleep of pass `k - 1`),
the run continues from the state at that check with "application stopped" and
the drop statement; what follows holds no insert and no further drop.  The
whole trace holds the `k` inserts made before the signal and exactly one drop. -/
theorem signal_stops_run (env : Env) (k n : Nat)
    (ho : env.openErr = none) (hp : env.pingErr = none) (hc : env.createErr = none)
    (hfirst : ∀ j, j < k → env.pendingAt j = false)
    (hsig : env.pendingAt k = true ∨ ∃ i, k = i + 1 ∧ env.sigSleep i = true)
    (hn : k < n) :
    (main env k).flow = .running ∧
    (∀ i, k = i + 1 → ∃ before, (main env k).trace = before ++ [.sleep 3]) ∧
    ∃ tail,
      (main env n).trace =
        (main env k).trace ++ .log "application stopped" :: .exec dropQ [] :: tail ∧
      (∀ e, e ∈ tail → e.isInsert = false ∧ e.isDrop = false) ∧
      ((main env k).trace.filter Event.isInsert).length = k ∧
      ((main env n).trace.filter Event.isInsert).length = k ∧
      ((main env n).trace.filter Event.isDrop).length = 1 := by
  have hpend : env.pendingAt k = true := by
    rcases hsig with h | ⟨i, rfl, h⟩
    · exact h
    · simp [Env.pendingAt, h]
  have hk := main_running env ho hp hc k hfirst
  have hm := main_stopped env ho hp hc k n ⟨hpend, hfirst⟩ hn
  have hstart : startTrace.filter Event.isInsert = [] := by
    simp [startTrace, Event.isInsert, createQ_ne_insertQ]
  have hstartD : startTrace.filter Event.isDrop = [] := by
    simp [startTrace, Event.isDrop, dropQ_ne_createQ.symm]
  refine ⟨by rw [hk]; rfl, ?_, ?_⟩
  · intro i hi
    subst hi
    rw [hk]
    exact ⟨startTrace ++ (passes env i ++ insertEvents env i), by
      simp [runningState, passes]⟩
  · rw [hm, hk]
    cases hD : env.dropErr with
    | none =>
      refine ⟨[.log "table dropped", .dbClose, .exit 0], by
        simp [stoppedState, runningState, stopTrace, hD], ?_, ?_, ?_, ?_⟩
      · intro e he
        simp at he
        rcases he with rfl | rfl | rfl <;> simp [Event.isInsert, Event.isDrop]
      · simp [runningState, List.filter_append, hstart, count_insert_passes]
      · simp [stoppedState, stopTrace, hD, List.filter_append, hstart, count_insert_passes,
          Event.isInsert, dropQ_ne_insertQ]
      · simp [stoppedState, stopTrace, hD, List.filter_append, hstartD, filter_drop_passes,
          Event.isDrop]
    | some err =>
      refine ⟨[.log ("failed to drop table " ++ err), .exit 1], by
        simp [stoppedState, runningState, stopTrace, hD], ?_, ?_, ?_, ?_⟩
      · intro e he
        simp at he
        rcases he with rfl | rfl <;> simp [Event.isInsert, Event.isDrop]
      · simp [runningState, List.filter_append, hstart, count_insert_passes]
      · simp [stoppedState, stopTrace, hD, List.filter_append, hstart, count_insert_passes,
          Event.isInsert, dropQ_ne_insertQ]
      · simp [stoppedState, stopTrace, hD, List.filter_append, hstartD, filter_drop_passes,
          Event.isDrop]

/-- C4 at a concrete run: the signal arrives during the third sleep. -/
theorem signal_stops_run_witness :
    Env.sample.openErr = none ∧ Env.sample.pingErr = none ∧ Env.sample.createErr = none ∧
    (∀ j, j < 3 → Env.sample.pendingAt j = false) ∧
    (∃ i, 3 = i + 1 ∧ Env.sample.sigSleep i = true) ∧ 3 < 7 ∧
    ∃ tail,
      (main Env.sample 7).trace =
        (main Env.sample 3).trace ++ .log "application stopped" :: .exec dropQ [] :: tail ∧
      (∀ e, e ∈ tail → e.isInsert = false ∧ e.isDrop = false) ∧
      ((main Env.sample 3).trace.filter Event.isInsert).length = 3 ∧
      ((main Env.sample 7).trace.filter Event.isInsert).length = 3 ∧
      ((main Env.sample 7).trace.filter Event.isDrop).length = 1 :=
  ⟨rfl, rfl, rfl, fun j hj => by interval_cases j <;> decide, ⟨2, rfl, rfl⟩, by decide,
   (signal_stops_run Env.sample 3 7 rfl rfl rfl
      (fun j hj => by interval_cases j <;> decide) (Or.inr ⟨2, rfl, rfl⟩) (by decide)).2.2⟩

/-- C3: when the `db.Exec` of the `i`-th insert fails, the failure is logged
and the run goes on: the pass ends with the same sleep of 3 seconds and leaves
the process in the same state as after a successful insert, apart from the log
line.  At the next loop check the run stops if a signal is in the channel and
otherwise sends the next insert, with a freshly drawn row.  The failed row is
not sent again: the trace holds one insert statement per pass. -/
theorem insert_failure_continues (env : Env) (i : Nat) (err : String)
    (ho : env.openErr = none) (hp : env.pingErr = none) (hc : env.createErr = none)
    (hfirst : ∀ j, j ≤ i → env.pendingAt j = false)
    (herr : env.insertErr i = some err) :
    (main env (i + 1)).flow = .running ∧
    (main env (i + 1)).trace =
      (main env i).trace ++ [.exec insertQ (env.row i).args,
        .log ("failed to insert order " ++ err), .sleep 3] ∧
    (main (env.withInsertOk i) (i + 1)).trace =
      (main env i).trace ++ [.exec insertQ (env.row i).args, .sleep 3] ∧
    (main env (i + 1)).flow = (main (env.withInsertOk i) (i + 1)).flow ∧
    (main env (i + 1)).pending = (main (env.withInsertOk i) (i + 1)).pending ∧
    (main env (i + 1)).iter = (main (env.withInsertOk i) (i + 1)).iter ∧
    (main env (i + 1)).deferred = (main (env.withInsertOk i) (i + 1)).deferred ∧
    (main env (i + 1)).cities = (main (env.withInsertOk i) (i + 1)).cities ∧
    ((main env (i + 1)).trace.filter Event.isInsert).length = i + 1 ∧
    (env.pendingAt (i + 1) = false →
      (main env (i + 2)).flow = .running ∧
      genRow mainCities (env.rnd (i + 1)) = .ok (env.row (i + 1)) ∧
      ∃ tail, (main env (i + 2)).trace =
        (main env (i + 1)).trace ++ .exec insertQ (env.row (i + 1)).args :: tail) ∧
    (env.pendingAt (i + 1) = true →
      ∃ tail, (main env (i + 2)).trace =
        (main env (i + 1)).trace ++ .log "application stopped" :: .exec dropQ [] :: tail ∧
        ∀ e, e ∈ tail → e.isInsert = false) := by
  have hlt : ∀ j, j < i → env.pendingAt j = false := fun j hj => hfirst j (Nat.le_of_lt hj)
  have hlt1 : ∀ j, j < i + 1 → env.pendingAt j = false :=
    fun j hj => hfirst j (Nat.lt_succ_iff.mp hj)
  have h0 := main_running env ho hp hc i hlt
  have h1 := main_running env ho hp hc (i + 1) hlt1
  have h1ok := main_running (env.withInsertOk i) ho hp hc (i + 1)
    (fun j hj => by rw [withInsertOk_pendingAt]; exact hlt1 j hj)
  have hstart : startTrace.filter Event.isInsert = [] := by
    simp [startTrace, Event.isInsert, createQ_ne_insertQ]
  refine ⟨by rw [h1]; rfl, ?_, ?_, by rw [h1, h1ok]; rfl, ?_, by rw [h1, h1ok]; rfl,
    by rw [h1, h1ok]; rfl, by rw [h1, h1ok]; rfl, ?_, ?_, ?_⟩
  · rw [h1, h0]
    simp [runningState, passes, insertEvents, herr]
  · rw [h1ok, h0]
    simp [runningState, passes, insertEvents, withInsertOk_passes env i i (Nat.le_refl i),
      withInsertOk_row, withInsertOk_insertErr]
  · rw [h1, h1ok]
    simp [runningState, withInsertOk_pendingAt]
  · rw [h1]
    simp [runningState, List.filter_append, hstart, count_insert_passes]
  · intro hnext
    have h2 := main_running env ho hp hc (i + 2) (fun j hj => by
      rcases Nat.lt_succ_iff_lt_or_eq.mp hj with h | h
      · exact hlt1 j h
      · rw [h]; exact hnext)
    refine ⟨by rw [h2]; rfl, genRow_row env (i + 1), ?_⟩
    rw [h2, h1]
    cases hE : env.insertErr (i + 1) with
    | none =>
      exact ⟨[.sleep 3], by
        simp [runningState, passes, insertEvents, hE, herr]⟩
    | some err2 =>
      exact ⟨[.log ("failed to insert order " ++ err2), .sleep 3], by
        simp [runningState, passes, insertEvents, hE, herr]⟩
  · intro hnext
    have h2 := main_stopped env ho hp hc (i + 1) (i + 2) ⟨hnext, hlt1⟩ (Nat.lt_succ_self _)
    rw [h2, h1]
    cases hD : env.dropErr with
    | none =>
      refine ⟨[.log "table dropped", .dbClose, .exit 0], by
        simp [stoppedState, runningState, stopTrace, hD], ?_⟩
      intro e he
      simp at he
      rcases he with rfl | rfl | rfl <;> simp [Event.isInsert]
    | some err2 =>
      refine ⟨[.log ("failed to drop table " ++ err2), .exit 1], by
        simp [stoppedState, runningState, stopTrace, hD], ?_⟩
      intro e he
      simp at he
      rcases he with rfl | rfl <;> simp [Event.isInsert]

/-- C3 at a concrete run: the second insert fails. -/
theorem insert_failure_continues_witness :
    ({ Env.sample with insertErr := fun i => if i = 1 then some "boom" else none } : Env).openErr
      = none ∧
    (∀ j, j ≤ 1 → ({ Env.sample with
        insertErr := fun i => if i = 1 then some "boom" else none } : Env).pendingAt j = false) ∧
    ({ Env.sample with insertErr := fun i => if i = 1 then some "boom" else none } : Env).insertErr 1
      = some "boom" ∧
    (main { Env.sample with insertErr := fun i => if i = 1 then some "boom" else none } 2).flow
      = .running :=
  ⟨rfl, fun j hj => by interval_cases j <;> decide, rfl,
   (insert_failure_continues
      { Env.sample with insertErr := fun i => if i = 1 then some "boom" else none } 1 "boom"
      rfl rfl rfl (fun j hj => by interval_cases j <;> decide) rfl).1⟩

end OrdersGenerator
